import Mathlib

/-!
Verification of the Skill_Issue chess-habit analyzer.

Part 1 embeds the move feature extractor of `src/backend/matches.py`;
Part 2 embeds the Gower dissimilarity used by the clustering step;
Part 3 embeds the analysis pipeline of `src/backend/analysis.py` with its
external collaborators (evaluation engine, LLM, persistence) supplied as
explicit parameters.
-/

namespace SkillIssue

/-! ### Part 1: `src/backend/matches.py` -/

/-- Constant `CPL_BLUNDER` from `matches.py`. -/
def CPL_BLUNDER : Int := 300

/-- Constant `CPL_MISTAKE` from `matches.py`. -/
def CPL_MISTAKE : Int := 100

/-- Constant `CPL_INACCURACY` from `matches.py`. -/
def CPL_INACCURACY : Int := 50

/-- Constant `TACTIC_DIFFERENCE_THRESHOLD` from `matches.py`. -/
def TACTIC_DIFFERENCE_THRESHOLD : Int := 150

/-- Function `get_mistake_type` from `matches.py` (lines 178-182). -/
def get_mistake_type (cpl : Int) : String :=
  if cpl ≥ CPL_BLUNDER then "Blunder"
  else if cpl ≥ CPL_MISTAKE then "Mistake"
  else if cpl ≥ CPL_INACCURACY then "Inaccuracy"
  else "Good"

/-- The guard `if mistake_type != "Good"` in `analyze_game_fully` (line 143):
a ply is recorded as a mistake exactly when its type is not `"Good"`. -/
def mistakeRecorded (cpl : Int) : Prop :=
  get_mistake_type cpl ≠ "Good"

instance (cpl : Int) : Decidable (mistakeRecorded cpl) := by
  unfold mistakeRecorded
  infer_instance

/-- One entry of the engine's `multipv` analysis list, as consumed by
`analyze_game_fully`: the principal variation (`pv`, a list of UCI move
strings; empty when the `pv` key is missing or empty) and the relative
score obtained via `score.relative.score(mate_score=10000)`. -/
structure InfoDict where
  pv : List String
  score : Int
deriving DecidableEq, Inhabited

/-- The loop over `analysis` in `analyze_game_fully` (lines 123-126): the
score of the first info entry whose principal variation starts with the
user's move, if any. -/
def findUserScore (analysis : List InfoDict) (move : String) : Option Int :=
  analysis.findSome? fun info =>
    if info.pv.head? = some move then some info.score else none

/-- The score assigned to the played move in `analyze_game_fully`
(lines 120-138): the score read from the `multipv` list when the move
appears there, and otherwise the negation of the focused single-variation
re-evaluation of the position after the move (both the mate and non-mate
branches of lines 133-136 negate the re-evaluated relative score). -/
def playerScore (analysis : List InfoDict) (move : String) (reevalScore : Int) : Int :=
  match findUserScore analysis move with
  | some s => s
  | none => -reevalScore

/-- The part of a mistake record determined by the per-ply scoring in
`analyze_game_fully` that the claims concern. -/
structure MistakeRecord where
  cpl : Int
  mistake_type : String
deriving DecidableEq

/-- Per-ply scoring of `analyze_game_fully` (lines 109-170): given the
`multipv=2` analysis list, the played move and the relative score of the
focused re-evaluation of the position after the move, the mistake record
appended to `mistakes_list`, if any.  A ply with no usable analysis (empty
list, or first entry without a principal variation) is skipped, as is a
ply whose mistake type is `"Good"`. -/
def analyzePly : List InfoDict → String → Int → Option MistakeRecord
  | [], _, _ => none
  | info0 :: rest, move, reevalScore =>
    if info0.pv = [] then none
    else
      let best_score := info0.score
      let user_move_score := playerScore (info0 :: rest) move reevalScore
      let cpl := max 0 (best_score - user_move_score)
      let mistake_type := get_mistake_type cpl
      if mistake_type = "Good" then none
      else some ⟨cpl, mistake_type⟩

/-- Chess piece kinds, mirroring the `python-chess` piece type constants. -/
inductive PieceType
  | pawn
  | knight
  | bishop
  | rook
  | queen
  | king
deriving DecidableEq

/-- A piece as stored on a `python-chess` board: a kind and a color
(`true` = White, `false` = Black). -/
structure Piece where
  pieceType : PieceType
  color : Bool
deriving DecidableEq

/-- Mapping `PIECE_VALUES` from `matches.py` (the king's value 100 is internal,
not used for material counts). -/
def PIECE_VALUES : PieceType → Nat
  | .pawn => 1
  | .knight => 3
  | .bishop => 3
  | .rook => 5
  | .queen => 9
  | .king => 100

/-- Board squares, indexed 0-63 as in `python-chess` (a1 = 0, h8 = 63). -/
abbrev Square := Fin 64

/-- A UCI move as used by `is_move_a_hang`: origin and destination square. -/
structure Move where
  from_square : Square
  to_square : Square
deriving DecidableEq

/-- Shallow model of the `python-chess` `Board` as queried by
`matches.py`.  `turn` is the side to move; `pieceAt`, `attackers`, `king`
and `attacks` are the library primitives `board.piece_at`,
`board.attackers(color, square)` (squares of `color`'s pieces attacking
`square`), `board.king(color)` and `board.attacks(square)` (squares
attacked by the piece on `square`; for a king these are the adjacent
squares). -/
structure Board where
  turn : Bool
  pieceAt : Square → Option Piece
  attackers : Bool → Square → List Square
  king : Bool → Option Square
  attacks : Square → List Square

/-- Query `board.is_attacked_by(color, square)` in `python-chess`: whether any
piece of `color` attacks `square`. -/
def Board.is_attacked_by (board : Board) (color : Bool) (square : Square) : Bool :=
  !(board.attackers color square).isEmpty

/-- The fold of lines 223-227 of `matches.py`: the minimum piece value
among the opponent squares attacking the destination, starting from the
internal maximum 100 and skipping empty squares. -/
def lowestAttackerValue (board : Board) (attackerSquares : List Square) : Nat :=
  attackerSquares.foldl
    (fun acc attacker_square =>
      match board.pieceAt attacker_square with
      | some attacker_piece => min acc (PIECE_VALUES attacker_piece.pieceType)
      | none => acc)
    100

/-- Function `is_move_a_hang` from `matches.py` (lines 202-232), on the board
before the move is pushed (the side to move is the mover). -/
def is_move_a_hang (board : Board) (move : Move) : Bool :=
  match board.pieceAt move.from_square with
  | none => false
  | some moved_piece =>
    let moved_piece_value := PIECE_VALUES moved_piece.pieceType
    let user_color := board.turn
    let opponent_color := !user_color
    let opponent_attackers := board.attackers opponent_color move.to_square
    if opponent_attackers.isEmpty then false
    else
      let our_defenders := board.attackers user_color move.to_square
      if our_defenders.isEmpty then true
      else decide (moved_piece_value > lowestAttackerValue board opponent_attackers)

/-- Function `get_mistake_category` from `matches.py` (lines 184-200): a missed
tactic when the analysis has a second line and the best score beats the
second-best by more than `TACTIC_DIFFERENCE_THRESHOLD`; otherwise a
hanging piece when `is_move_a_hang` holds; otherwise a positional
error. -/
def get_mistake_category (board : Board) (move : Move) (analysis : List InfoDict) : String :=
  if 1 < analysis.length ∧
      (analysis.getD 0 default).score - (analysis.getD 1 default).score >
        TACTIC_DIFFERENCE_THRESHOLD then
    "Missed_Tactic"
  else if is_move_a_hang board move then "Hanging_Piece"
  else "Positional_Error"

/-- Whether `color`'s king stands on a square attacked by the other
side - the position-level meaning of "that color's king is in check". -/
def kingInCheck (board : Board) (color : Bool) : Bool :=
  match board.king color with
  | some sq => board.is_attacked_by (!color) sq
  | none => false

/-- Query `board.is_check()` in `python-chess`: whether the SIDE TO MOVE is in
check.  It takes no color argument. -/
def Board.is_check (board : Board) : Bool :=
  kingInCheck board board.turn

/-- Function `get_king_safety` from `matches.py` (lines 255-272).  Note that the
first test is `board.is_check()`, which refers to the side to move, not
to the `color` argument. -/
def get_king_safety (board : Board) (color : Bool) : String :=
  if board.is_check then "In_Check"
  else
    match board.king color with
    | none => "Safe"
    | some king_square =>
      let nearby_squares := board.attacks king_square
      let attackers :=
        nearby_squares.countP (fun square => board.is_attacked_by (!color) square)
      if attackers > 3 then "Exposed" else "Safe"

/-- A concrete position: White king e1 (square 4), Black rook e8
(square 60), Black king a8 (square 56), White to move - FEN
`k3r3/8/8/8/8/8/8/4K3 w - - 0 1`.  White is in check from the rook;
Black's king is not attacked.  The `attackers` and `attacks` fields list
the attack relations of this position restricted to the squares the
claims query. -/
def checkBoard : Board where
  turn := true
  pieceAt := fun sq =>
    if sq.val = 4 then some ⟨.king, true⟩
    else if sq.val = 60 then some ⟨.rook, false⟩
    else if sq.val = 56 then some ⟨.king, false⟩
    else none
  attackers := fun c sq =>
    if c then
      if sq.val ∈ [3, 5, 11, 12, 13] then [(4 : Square)] else []
    else
      if sq.val ∈ [4, 12, 20, 28, 36, 44, 52, 57, 58, 59] then [(60 : Square)]
      else if sq.val ∈ [48, 49] then [(56 : Square)]
      else []
  king := fun c => if c then some (4 : Square) else some (56 : Square)
  attacks := fun sq =>
    if sq.val = 4 then [3, 5, 11, 12, 13]
    else if sq.val = 56 then [57, 48, 49]
    else if sq.val = 60 then [59, 58, 57, 52, 44, 36, 28, 20, 12, 4, 61, 62, 63]
    else []

/-- The occupancy map of a board, the state mutated by
`board.remove_piece_at` / `board.set_piece_at`. -/
abbrev BoardMap := Square → Option Piece

/-- Mutation `board.remove_piece_at(square)`. -/
def remove_piece_at (b : BoardMap) (square : Square) : BoardMap :=
  fun sq => if sq = square then none else b sq

/-- Mutation `board.set_piece_at(square, piece)`. -/
def set_piece_at (b : BoardMap) (square : Square) (piece : Piece) : BoardMap :=
  fun sq => if sq = square then some piece else b sq

/-- Query `board.pieces(piece_type, color)`: the squares holding a piece of the
given kind and color. -/
def piecesOf (b : BoardMap) (t : PieceType) (color : Bool) : List Square :=
  (List.finRange 64).filter (fun sq => b sq = some ⟨t, color⟩)

/-- Function `is_piece_defending` from `matches.py` (lines 312-329), with the
board state passed explicitly: the function removes the piece on
`square`, runs the attack query on the mutated occupancy, and sets the
piece back before returning.  The attack test `board.is_attacked_by` is a
pure function of the occupancy map, supplied as `oracle`.  The returned
pair is (result, final board state). -/
def is_piece_defending (oracle : BoardMap → Bool → Square → Bool)
    (board : BoardMap) (square : Square) (color : Bool) : Bool × BoardMap :=
  match board square with
  | none => (false, board)
  | some piece =>
    let board1 := remove_piece_at board square
    let defended_any :=
      (piecesOf board1 piece.pieceType color).any (fun sq => oracle board1 (!color) sq)
    (defended_any, set_piece_at board1 square piece)

/-! ### Part 2: the Gower dissimilarity matrix

`_run_hdbscan_clustering` in `src/backend/analysis.py` (lines 126-154)
builds the matrix by calling the external `gower.gower_matrix` library on
the standardized numeric columns and the categorical columns. -/

/-- Maximum of a column of rationals (0 for the empty column). -/
def colMax : List ℚ → ℚ
  | [] => 0
  | x :: xs => xs.foldl max x

/-- Minimum of a column of rationals (0 for the empty column). -/
def colMin : List ℚ → ℚ
  | [] => 0
  | x :: xs => xs.foldl min x

/-- Modelled from the spec: the numeric-feature term of the external
`gower.gower_matrix` call in `_run_hdbscan_clustering` - the
"per-feature normalized absolute difference for numeric fields", the
difference of the two records' values divided by the column's range
(0 when the range is 0). -/
def numColDist (col : List ℚ) (i j : ℕ) : ℚ :=
  let range := colMax col - colMin col
  if range = 0 then 0 else |col.getD i 0 - col.getD j 0| / range

/-- Modelled from the spec: the categorical-feature term of the external
`gower.gower_matrix` call - the "mismatch indicator for categorical
fields". -/
def catColDist (col : List String) (i j : ℕ) : ℚ :=
  if col.getD i "" = col.getD j "" then 0 else 1

/-- The input to the Gower computation, column-major: the standardized
numeric columns (`cpl`, `move_number`) and the categorical columns of
`CATEGORICAL_COLS`, each holding one value per mistake record. -/
structure GowerData where
  numCols : List (List ℚ)
  catCols : List (List String)

/-- Modelled from the spec: entry (i, j) of the Gower dissimilarity
matrix - the per-feature distances "averaged unweighted across the full
feature set". -/
def gowerEntry (d : GowerData) (i j : ℕ) : ℚ :=
  ((d.numCols.map (fun col => numColDist col i j)).sum
      + (d.catCols.map (fun col => catColDist col i j)).sum)
    / ((d.numCols.length : ℚ) + (d.catCols.length : ℚ))

/-- A two-record input used to instantiate the matrix properties on
concrete data. -/
def gowerExample : GowerData where
  numCols := [[0, 1]]
  catCols := [["Blunder", "Mistake"]]

/-! ### Part 3: `src/backend/analysis.py`, the analysis pipeline -/

/-- The structured output of the text-generation collaborator
(`_generate_llm_feedback`). -/
structure LlmOutput where
  habit_name : String
  feedback : String
  tip : String
deriving DecidableEq

/-- The fallback feedback returned by `_generate_llm_feedback` when all
three attempts fail (lines 305-309 of `analysis.py`). -/
def fallbackFeedback : LlmOutput where
  habit_name := "LLM Error Fallback"
  feedback := "The AI coach could not generate personalized feedback. Please check the API status."
  tip := "Review the cluster manually."

/-- The observable actions of one pipeline run: the calls the pipeline
makes to its collaborators, in order. -/
inductive Event
  | clearOld
  | clusterRun
  | llmAttempt (attempt : ℕ)
  | sleep (seconds : ℕ)
  | saveHabit (label : Int) (name feedback tip : String)
      (triggers : List (String × ℚ)) (result : Option Int)
  | linkMistakes (habit_id : Int) (mistake_ids : List ℕ)
deriving DecidableEq

/-- The external collaborators of the pipeline, supplied as explicit
functions.  `llm attempt` is the outcome of the OpenAI call on the given
attempt (`none` = exception or missing tool call); `save` is
`db_helpers.save_habit_analysis` (label, habit name, triggers, feedback,
tip, returning the new serial id or `none` on failure); `cluster` gives
the HDBSCAN label of each fetched mistake id; `model_coef` is the fitted
(feature name, coefficient) list of `_find_triggers_for_cluster` for a
cluster label, `none` when training was skipped (e.g. empty control
set); `preprocessorOk` is whether `_create_feature_preprocessor`
succeeded. -/
structure Env where
  llm : ℕ → Option LlmOutput
  save : Int → String → List (String × ℚ) → String → String → Option Int
  cluster : List ℕ → List Int
  model_coef : Int → Option (List (String × ℚ))
  preprocessorOk : Bool

/-- Function `_generate_llm_feedback` (lines 277-309 of `analysis.py`): the
`for attempt in range(3)` retry loop.  A failed attempt other than the
last sleeps `2 ** attempt` seconds before retrying; after the third
failure the fixed fallback is returned. -/
def generate_llm_feedback (env : Env) : LlmOutput × List Event :=
  match env.llm 0 with
  | some out => (out, [Event.llmAttempt 0])
  | none =>
    match env.llm 1 with
    | some out => (out, [Event.llmAttempt 0, Event.sleep 1, Event.llmAttempt 1])
    | none =>
      match env.llm 2 with
      | some out =>
        (out, [Event.llmAttempt 0, Event.sleep 1, Event.llmAttempt 1,
               Event.sleep 2, Event.llmAttempt 2])
      | none =>
        (fallbackFeedback,
         [Event.llmAttempt 0, Event.sleep 1, Event.llmAttempt 1,
          Event.sleep 2, Event.llmAttempt 2])

/-- The trigger extraction of `_generate_and_save_feedback` (line 318):
keep the (feature, coefficient) pairs whose coefficient exceeds 0.1. -/
def extractTriggers (coefs : List (String × ℚ)) : List (String × ℚ) :=
  coefs.filter (fun p => p.2 > 0.1)

/-- Function `_generate_and_save_feedback` (lines 312-363 of `analysis.py`): with
no trigger above the floor the cluster yields nothing; otherwise the LLM
is consulted (with retry/fallback), the habit name gets the cluster-label
suffix `" (H<label>)"`, and `save_habit_analysis` is called.  Returns the
new serial habit id (or `none`) together with the emitted events.  The
purely informational arguments of the save call (confidence, prime
example id, cluster summary) do not affect control flow and are
elided. -/
def generate_and_save_feedback (env : Env) (label : Int)
    (coefs : List (String × ℚ)) : Option Int × List Event :=
  let triggers := extractTriggers coefs
  if triggers.isEmpty then (none, [])
  else
    let llm_output := (generate_llm_feedback env).1
    let llmEvents := (generate_llm_feedback env).2
    let habit_name := llm_output.habit_name ++ " (H" ++ toString label ++ ")"
    let idOpt := env.save label habit_name triggers llm_output.feedback llm_output.tip
    (idOpt,
     llmEvents ++
       [Event.saveHabit label habit_name llm_output.feedback llm_output.tip triggers idOpt])

/-- The per-cluster body of the pipeline loop (lines 98-119 of
`analysis.py`): train the trigger model, generate and save the feedback,
and - only under Python's `if new_serial_id:` truthiness test, i.e. when
the save produced a non-`None`, nonzero id - link the cluster's member
mistakes to the new habit.  Returns whether `new_habit_count` was
incremented, together with the emitted events. -/
def linkStep (memberIds : List ℕ) : Option Int → List Event → Bool × List Event
  | none, evs => (false, evs)
  | some hid, evs =>
    if hid = 0 then (false, evs)
    else (true, evs ++ [Event.linkMistakes hid memberIds])

/-- The remainder of the per-cluster body: train the trigger model
(`_find_triggers_for_cluster`; `none` when it failed), generate and save
the feedback, then apply the link step.  Returns whether
`new_habit_count` was incremented, together with the emitted events. -/
def processCluster (env : Env) (label : Int) (memberIds : List ℕ) :
    Bool × List Event :=
  match env.model_coef label with
  | none => (false, [])
  | some coefs =>
    linkStep memberIds (generate_and_save_feedback env label coefs).1
      (generate_and_save_feedback env label coefs).2

/-- The terminal result of `main_analysis_pipeline`. -/
structure PipelineResult where
  new_habits_found : ℕ
  total_mistakes : ℕ
deriving DecidableEq

/-- Function `main_analysis_pipeline` (lines 51-122 of `analysis.py`): clear prior
analysis, fetch the pending mistakes (here: their ids, passed in), return
`{new_habits_found: 0, total_mistakes: n}` when fewer than 20 are
pending, otherwise run the clustering, bail out likewise when everything
is noise or the preprocessor fails, and otherwise process each distinct
non-noise cluster label in turn. -/
def main_analysis_pipeline (env : Env) (all_mistakes : List ℕ) :
    PipelineResult × List Event :=
  let evs0 := [Event.clearOld]
  if all_mistakes.length < 20 then
    (⟨0, all_mistakes.length⟩, evs0)
  else
    let labels := env.cluster all_mistakes
    let labeled := all_mistakes.zip labels
    let habits := labeled.filter (fun p => p.2 ≠ -1)
    let evs1 := evs0 ++ [Event.clusterRun]
    if habits.isEmpty then
      (⟨0, all_mistakes.length⟩, evs1)
    else if !env.preprocessorOk then
      (⟨0, all_mistakes.length⟩, evs1)
    else
      let uniqueLabels := (habits.map Prod.snd).dedup
      let step := fun (acc : ℕ × List Event) (label : Int) =>
        let members := (labeled.filter (fun p => p.2 = label)).map Prod.fst
        let r := processCluster env label members
        (acc.1 + (if r.1 then 1 else 0), acc.2 ++ r.2)
      let final := uniqueLabels.foldl step (0, [])
      (⟨final.1, all_mistakes.length⟩, evs1 ++ final.2)

/-- A trivial collaborator environment used to instantiate theorems on
concrete inputs. -/
def trivialEnv : Env where
  llm := fun _ => none
  save := fun _ _ _ _ _ => none
  cluster := fun _ => []
  model_coef := fun _ => none
  preprocessorOk := true

/-- An environment whose persistence save always fails and whose LLM
succeeds immediately. -/
def saveFailEnv : Env where
  llm := fun _ => some ⟨"Name", "Feedback", "Tip"⟩
  save := fun _ _ _ _ _ => none
  cluster := fun _ => []
  model_coef := fun _ => some [("game_phase_Endgame", 2)]
  preprocessorOk := true

/-- A concrete `multipv=2` analysis list used to instantiate the scoring
theorems: best line `e2e4` scoring 50, second line `d2d4` scoring -80. -/
def analysisEx : List InfoDict :=
  [⟨["e2e4"], 50⟩, ⟨["d2d4"], -80⟩]

/-- The record `analyzePly` produces on `analysisEx` for the played move
`a2a3` with re-evaluation score 100. -/
def recordEx : MistakeRecord :=
  ⟨150, "Mistake"⟩

/-- A concrete coefficient list used to instantiate the trigger
theorems: one strong positive coefficient and one below the floor. -/
def coefsEx : List (String × ℚ) :=
  [("game_phase_Endgame", 2), ("move_type_Quiet", 1/20)]

/-! ### Theorems -/

/-- C1: for every centipawn loss value `cpl`, `get_mistake_type` returns
`Blunder` exactly when `cpl ≥ 300`, `Mistake` exactly when
`100 ≤ cpl < 300`, `Inaccuracy` exactly when `50 ≤ cpl < 100`, and the
move is recorded as a mistake exactly when `cpl ≥ 50` (otherwise it is
discarded); the boundaries are inclusive: `cpl = 300` yields `Blunder`
and `cpl = 299` yields `Mistake`. -/
theorem mistake_type_thresholds (cpl : Int) :
    (get_mistake_type cpl = "Blunder" ↔ 300 ≤ cpl) ∧
    (get_mistake_type cpl = "Mistake" ↔ 100 ≤ cpl ∧ cpl < 300) ∧
    (get_mistake_type cpl = "Inaccuracy" ↔ 50 ≤ cpl ∧ cpl < 100) ∧
    (mistakeRecorded cpl ↔ 50 ≤ cpl) ∧
    get_mistake_type 300 = "Blunder" ∧
    get_mistake_type 299 = "Mistake" := by
  refine ⟨?_, ?_, ?_, ?_, by decide, by decide⟩ <;>
    · simp only [mistakeRecorded, get_mistake_type, CPL_BLUNDER, CPL_MISTAKE, CPL_INACCURACY]
      split_ifs with h1 h2 h3 <;> simp_all <;> omega

/-- C2: whenever `analyzePly` records a mistake, the recorded centipawn
loss equals `max 0 (bestScore - playerScore)`, where `bestScore` is the
score of the first analysis line and `playerScore` is read directly from
the analysis list when the played move heads one of its variations and is
otherwise the negation of the re-evaluation score; consequently the
recorded `cpl` is nonnegative. -/
theorem cpl_formula (analysis : List InfoDict) (move : String) (reevalScore : Int)
    (r : MistakeRecord) (hr : analyzePly analysis move reevalScore = some r) :
    (∀ info0, analysis.head? = some info0 →
      r.cpl = max 0 (info0.score - playerScore analysis move reevalScore)) ∧
    0 ≤ r.cpl ∧
    (∀ s, findUserScore analysis move = some s →
      playerScore analysis move reevalScore = s) ∧
    (findUserScore analysis move = none →
      playerScore analysis move reevalScore = -reevalScore) := by
  refine ⟨?_, ?_, ?_, ?_⟩
  · intro info0 h0
    cases analysis with
    | nil => simp at h0
    | cons a rest =>
      simp only [List.head?] at h0
      injection h0 with h0
      subst h0
      simp only [analyzePly] at hr
      split_ifs at hr with h1 h2
      injection hr with hr
      subst hr
      rfl
  · cases analysis with
    | nil => simp [analyzePly] at hr
    | cons a rest =>
      simp only [analyzePly] at hr
      split_ifs at hr with h1 h2
      injection hr with hr
      subst hr
      exact le_max_left 0 _
  · intro s hs
    unfold playerScore
    rw [hs]
  · intro hs
    unfold playerScore
    rw [hs]

/-- Witness for C2: the conclusion instantiated on `analysisEx`, move
`a2a3`, re-evaluation score 100 and the resulting record `recordEx`. -/
theorem cpl_formula_witness :
    (∀ info0, analysisEx.head? = some info0 →
      recordEx.cpl = max 0 (info0.score - playerScore analysisEx "a2a3" 100)) ∧
    0 ≤ recordEx.cpl ∧
    (∀ s, findUserScore analysisEx "a2a3" = some s →
      playerScore analysisEx "a2a3" 100 = s) ∧
    (findUserScore analysisEx "a2a3" = none →
      playerScore analysisEx "a2a3" 100 = -100) :=
  cpl_formula analysisEx "a2a3" 100 recordEx (by decide)

/-- C10: `is_piece_defending` leaves the board exactly as it found it -
on every execution path the returned board state equals the input board
state. -/
theorem is_piece_defending_frame (oracle : BoardMap → Bool → Square → Bool)
    (board : BoardMap) (square : Square) (color : Bool) :
    (is_piece_defending oracle board square color).2 = board := by
  unfold is_piece_defending
  cases h : board square with
  | none => rfl
  | some piece =>
    funext sq
    simp only [set_piece_at, remove_piece_at]
    by_cases hs : sq = square
    · subst hs
      simp [h]
    · simp [hs]

/-- C3: the mistake category is first-match-wins: `Missed_Tactic` exactly
when a second-best line exists and the best score beats it by more than
150 centipawns; otherwise `Hanging_Piece` exactly when `is_move_a_hang`
holds; otherwise `Positional_Error`.  And `is_move_a_hang` holds exactly
when the moved piece exists, the destination square is attacked by the
opponent, and it is either undefended or the moved piece's value exceeds
the cheapest attacker's value from the static enumeration. -/
theorem mistake_category_order (board : Board) (move : Move) (analysis : List InfoDict) :
    (get_mistake_category board move analysis = "Missed_Tactic" ↔
      (1 < analysis.length ∧
        (analysis.getD 0 default).score - (analysis.getD 1 default).score >
          TACTIC_DIFFERENCE_THRESHOLD)) ∧
    (get_mistake_category board move analysis = "Hanging_Piece" ↔
      ¬(1 < analysis.length ∧
          (analysis.getD 0 default).score - (analysis.getD 1 default).score >
            TACTIC_DIFFERENCE_THRESHOLD) ∧
        is_move_a_hang board move = true) ∧
    (get_mistake_category board move analysis = "Positional_Error" ↔
      ¬(1 < analysis.length ∧
          (analysis.getD 0 default).score - (analysis.getD 1 default).score >
            TACTIC_DIFFERENCE_THRESHOLD) ∧
        is_move_a_hang board move = false) ∧
    (is_move_a_hang board move = true ↔
      ∃ p, board.pieceAt move.from_square = some p ∧
        board.attackers (!board.turn) move.to_square ≠ [] ∧
        (board.attackers board.turn move.to_square = [] ∨
          PIECE_VALUES p.pieceType >
            lowestAttackerValue board (board.attackers (!board.turn) move.to_square))) := by
  have hang_iff : is_move_a_hang board move = true ↔
      ∃ p, board.pieceAt move.from_square = some p ∧
        board.attackers (!board.turn) move.to_square ≠ [] ∧
        (board.attackers board.turn move.to_square = [] ∨
          PIECE_VALUES p.pieceType >
            lowestAttackerValue board (board.attackers (!board.turn) move.to_square)) := by
    unfold is_move_a_hang
    cases hp : board.pieceAt move.from_square with
    | none => simp
    | some p =>
      simp only [Option.some.injEq]
      split_ifs with h1 h2 <;>
        simp_all [List.isEmpty_iff, List.isEmpty_eq_false]
  refine ⟨?_, ?_, ?_, hang_iff⟩
  · unfold get_mistake_category
    split_ifs with hgap hhang
    · exact iff_of_true rfl hgap
    · exact iff_of_false (by decide) (fun h => hgap h)
    · exact iff_of_false (by decide) (fun h => hgap h)
  · unfold get_mistake_category
    split_ifs with hgap hhang
    · exact iff_of_false (by decide) (fun h => h.1 hgap)
    · exact iff_of_true rfl ⟨hgap, hhang⟩
    · exact iff_of_false (by decide) (fun h => hhang h.2)
  · unfold get_mistake_category
    split_ifs with hgap hhang
    · exact iff_of_false (by decide) (fun h => h.1 hgap)
    · exact iff_of_false (by decide) (fun h => by simp [h.2] at hhang)
    · exact iff_of_true rfl ⟨hgap, (Bool.not_eq_true _) ▸ hhang⟩

/-- C9 counterexample: on the position `k3r3/8/8/8/8/8/8/4K3 w - - 0 1`
(White to move and in check from the e8 rook, Black king on a8 not
attacked), querying the king safety of Black returns `In_Check` even
though Black's king is not in check: `board.is_check()` refers to the
side to move, not to the queried color. -/
theorem king_safety_wrong_color :
    get_king_safety checkBoard false = "In_Check" ∧
    kingInCheck checkBoard false = false := by
  constructor
  · decide
  · decide

/-- C9 (amended): `get_king_safety` returns `In_Check` exactly when the
side to move is in check - regardless of the queried color; otherwise
`Exposed` exactly when more than 3 squares adjacent to the queried
color's king are attacked by that color's opponent, and `Safe`
otherwise.  When the queried color is the side to move (the subject's own
king at analysis time), the `In_Check` branch does coincide with that
color's king being in check. -/
theorem king_safety_branches (board : Board) (color : Bool) :
    (get_king_safety board color = "In_Check" ↔ board.is_check = true) ∧
    (∀ ks, board.king color = some ks →
      (get_king_safety board color = "Exposed" ↔
        board.is_check = false ∧
        3 < (board.attacks ks).countP (fun square => board.is_attacked_by (!color) square))) ∧
    (∀ ks, board.king color = some ks →
      (get_king_safety board color = "Safe" ↔
        board.is_check = false ∧
        (board.attacks ks).countP (fun square => board.is_attacked_by (!color) square) ≤ 3)) ∧
    (color = board.turn →
      (get_king_safety board color = "In_Check" ↔ kingInCheck board color = true)) := by
  refine ⟨?_, ?_, ?_, ?_⟩
  · unfold get_king_safety
    cases hc : board.is_check with
    | true => simp
    | false =>
      cases hk : board.king color with
      | none => simp
      | some ks => simp only [Bool.false_eq_true, if_false]; split_ifs <;> simp
  · intro ks hks
    unfold get_king_safety
    rw [hks]
    cases hc : board.is_check with
    | true => simp
    | false =>
      simp only [Bool.false_eq_true, if_false]
      split_ifs with h <;> simp [h]
  · intro ks hks
    unfold get_king_safety
    rw [hks]
    cases hc : board.is_check with
    | true => simp
    | false =>
      simp only [Bool.false_eq_true, if_false]
      split_ifs with h <;> simp <;> omega
  · intro hcol
    subst hcol
    unfold get_king_safety Board.is_check
    cases hc : kingInCheck board board.turn with
    | true => simp
    | false =>
      cases hk : board.king board.turn with
      | none => simp
      | some ks => simp only [Bool.false_eq_true, if_false]; split_ifs <;> simp

/-- Witness for C9 (amended): instantiated on `checkBoard` for the White
king (the side to move), whose square is 4. -/
theorem king_safety_branches_witness :
    (get_king_safety checkBoard true = "Exposed" ↔
      checkBoard.is_check = false ∧
      3 < (checkBoard.attacks 4).countP
        (fun square => checkBoard.is_attacked_by (!true) square)) ∧
    (get_king_safety checkBoard true = "In_Check" ↔
      kingInCheck checkBoard true = true) :=
  ⟨(king_safety_branches checkBoard true).2.1 4 rfl,
   (king_safety_branches checkBoard true).2.2.2 rfl⟩

/-- C4: with fewer than 20 pending mistakes the pipeline returns
`{new_habits_found: 0, total_mistakes: n}` after only the clear step,
without ever invoking the clustering. -/
theorem insufficient_data_aborts (env : Env) (all_mistakes : List ℕ)
    (h : all_mistakes.length < 20) :
    main_analysis_pipeline env all_mistakes =
      (⟨0, all_mistakes.length⟩, [Event.clearOld]) ∧
    Event.clusterRun ∉ (main_analysis_pipeline env all_mistakes).2 := by
  have hmain : main_analysis_pipeline env all_mistakes =
      (⟨0, all_mistakes.length⟩, [Event.clearOld]) := by
    unfold main_analysis_pipeline
    rw [if_pos h]
  refine ⟨hmain, ?_⟩
  rw [hmain]
  simp

/-- Witness for C4: 15 pending mistakes yield
`{new_habits_found: 0, total_mistakes: 15}` with no clustering event. -/
theorem insufficient_data_aborts_witness :
    main_analysis_pipeline trivialEnv (List.range 15) =
      (⟨0, (List.range 15).length⟩, [Event.clearOld]) ∧
    Event.clusterRun ∉ (main_analysis_pipeline trivialEnv (List.range 15)).2 :=
  insufficient_data_aborts trivialEnv (List.range 15) (by norm_num)

/-- C5: a feature is selected as a trigger exactly when its fitted
coefficient strictly exceeds 0.1 (so every extracted trigger has
coefficient above 0.1), and a cluster whose trigger set is empty yields
no persisted habit (the save step returns nothing and emits no
events). -/
theorem trigger_floor (coefs : List (String × ℚ)) (env : Env) (label : Int) :
    (∀ p ∈ extractTriggers coefs, (0.1 : ℚ) < p.2) ∧
    (∀ name c, (name, c) ∈ extractTriggers coefs ↔
      ((name, c) ∈ coefs ∧ (0.1 : ℚ) < c)) ∧
    (extractTriggers coefs = [] →
      generate_and_save_feedback env label coefs = (none, [])) := by
  refine ⟨?_, ?_, ?_⟩
  · intro p hp
    exact of_decide_eq_true (List.mem_filter.mp hp).2
  · intro name c
    simp [extractTriggers, List.mem_filter]
  · intro he
    unfold generate_and_save_feedback
    rw [he]
    simp

/-- Witness for C5: instantiated on `coefsEx` (coefficients 2 and 1/20);
the strong feature is a trigger, and the below-floor singleton list
produces no habit. -/
theorem trigger_floor_witness :
    (("game_phase_Endgame", (2 : ℚ)) ∈ extractTriggers coefsEx ↔
      (("game_phase_Endgame", (2 : ℚ)) ∈ coefsEx ∧ (0.1 : ℚ) < 2)) ∧
    generate_and_save_feedback trivialEnv 7 [("move_type_Quiet", (1/20 : ℚ))] =
      (none, []) :=
  ⟨(trigger_floor coefsEx trivialEnv 7).2.1 "game_phase_Endgame" 2,
   (trigger_floor [("move_type_Quiet", (1/20 : ℚ))] trivialEnv 7).2.2
     (by norm_num [extractTriggers, List.filter])⟩

/-- The retry loop of `_generate_llm_feedback` emits only attempt and
sleep events, never a link event. -/
theorem link_not_mem_llm (env : Env) (hid : Int) (ids : List ℕ) :
    Event.linkMistakes hid ids ∉ (generate_llm_feedback env).2 := by
  unfold generate_llm_feedback
  cases env.llm 0 <;> cases env.llm 1 <;> cases env.llm 2 <;> simp

/-- Helper fact: `_generate_and_save_feedback` never emits a link event itself. -/
theorem link_not_mem_gensave (env : Env) (label : Int) (coefs : List (String × ℚ))
    (hid : Int) (ids : List ℕ) :
    Event.linkMistakes hid ids ∉ (generate_and_save_feedback env label coefs).2 := by
  unfold generate_and_save_feedback
  cases h : (extractTriggers coefs).isEmpty with
  | true => simp [h]
  | false =>
    simp only [h, Bool.false_eq_true, if_false]
    intro hmem
    rcases List.mem_append.mp hmem with hm | hm
    · exact link_not_mem_llm env hid ids hm
    · simp at hm

/-- When `_generate_and_save_feedback` produces a habit id, its event
trace is the LLM events followed by the successful save event. -/
theorem gensave_some_shape (env : Env) (label : Int) (coefs : List (String × ℚ))
    (hid : Int) (h : (generate_and_save_feedback env label coefs).1 = some hid) :
    (generate_and_save_feedback env label coefs).2 =
      (generate_llm_feedback env).2 ++
        [Event.saveHabit label
          ((generate_llm_feedback env).1.habit_name ++ " (H" ++ toString label ++ ")")
          (generate_llm_feedback env).1.feedback (generate_llm_feedback env).1.tip
          (extractTriggers coefs) (some hid)] := by
  unfold generate_and_save_feedback at h ⊢
  cases hc : (extractTriggers coefs).isEmpty with
  | true => simp [hc] at h
  | false =>
    simp only [hc, Bool.false_eq_true, if_false] at h ⊢
    rw [h]

/-- Reduction of `processCluster` once the trigger model for the label is
fitted. -/
theorem processCluster_eq (env : Env) (label : Int) (memberIds : List ℕ)
    (coefs : List (String × ℚ)) (hc : env.model_coef label = some coefs) :
    processCluster env label memberIds =
      linkStep memberIds (generate_and_save_feedback env label coefs).1
        (generate_and_save_feedback env label coefs).2 := by
  unfold processCluster
  rw [hc]

/-- C6: persisting a habit and linking its member mistakes is
all-or-nothing.  If the save produces no habit id, no link event is ever
emitted for the cluster; and whenever a link event occurs, the save
succeeded with that very id, the linked ids are the cluster members, a
successful save event precedes it in the trace, and the link is the final
event after the save trace. -/
theorem save_link_atomic (env : Env) (label : Int) (memberIds : List ℕ)
    (coefs : List (String × ℚ)) (hc : env.model_coef label = some coefs) :
    ((generate_and_save_feedback env label coefs).1 = none →
      ∀ hid ids, Event.linkMistakes hid ids ∉ (processCluster env label memberIds).2) ∧
    (∀ hid ids, Event.linkMistakes hid ids ∈ (processCluster env label memberIds).2 →
      hid ≠ 0 ∧
      (generate_and_save_feedback env label coefs).1 = some hid ∧
      ids = memberIds ∧
      (∃ name fb tip trg,
        Event.saveHabit label name fb tip trg (some hid) ∈
          (generate_and_save_feedback env label coefs).2) ∧
      (processCluster env label memberIds).2 =
        (generate_and_save_feedback env label coefs).2 ++
          [Event.linkMistakes hid memberIds]) := by
  constructor
  · intro hnone hid ids
    rw [processCluster_eq env label memberIds coefs hc, hnone]
    exact link_not_mem_gensave env label coefs hid ids
  · intro hid ids hmem
    rw [processCluster_eq env label memberIds coefs hc] at hmem
    cases hgs : (generate_and_save_feedback env label coefs).1 with
    | none =>
      rw [hgs] at hmem
      simp only [linkStep] at hmem
      exact absurd hmem (link_not_mem_gensave env label coefs hid ids)
    | some hid0 =>
      rw [hgs] at hmem
      simp only [linkStep] at hmem
      by_cases hz : hid0 = 0
      · rw [if_pos hz] at hmem
        exact absurd hmem (link_not_mem_gensave env label coefs hid ids)
      · rw [if_neg hz] at hmem
        rcases List.mem_append.mp hmem with hm | hm
        · exact absurd hm (link_not_mem_gensave env label coefs hid ids)
        · have hm2 := List.mem_singleton.mp hm
          injection hm2 with h1 h2
          subst h1
          have h2s := h2.symm
          subst h2s
          refine ⟨hz, rfl, rfl, ?_, ?_⟩
          · refine ⟨(generate_llm_feedback env).1.habit_name ++ " (H" ++ toString label ++ ")",
              (generate_llm_feedback env).1.feedback, (generate_llm_feedback env).1.tip,
              extractTriggers coefs, ?_⟩
            rw [gensave_some_shape env label coefs hid hgs]
            exact List.mem_append_right _ (List.mem_singleton.mpr rfl)
          · rw [processCluster_eq env label memberIds coefs hc, hgs]
            simp only [linkStep]
            rw [if_neg hz]

/-- Witness for C6: with an environment whose save always fails, no link
event is emitted when processing a cluster. -/
theorem save_link_atomic_witness :
    Event.linkMistakes 1 [5, 6] ∉ (processCluster saveFailEnv 3 [5, 6]).2 :=
  (save_link_atomic saveFailEnv 3 [5, 6] [("game_phase_Endgame", 2)] rfl).1
    (by simp only [generate_and_save_feedback]; split_ifs <;> rfl) 1 [5, 6]

/-- C8: when all three text-generation attempts fail, the call returns
the fixed fallback after attempts 0, 1, 2 with exponential backoff sleeps
of 2^0 and 2^1 seconds between them, the run continues, and - provided
the cluster has triggers - the habit is still persisted with the fallback
feedback, tip and (suffixed) habit name. -/
theorem llm_fallback (env : Env) (label : Int) (coefs : List (String × ℚ))
    (h0 : env.llm 0 = none) (h1 : env.llm 1 = none) (h2 : env.llm 2 = none)
    (ht : (extractTriggers coefs).isEmpty = false) :
    generate_llm_feedback env =
      (fallbackFeedback,
       [Event.llmAttempt 0, Event.sleep 1, Event.llmAttempt 1,
        Event.sleep 2, Event.llmAttempt 2]) ∧
    Event.saveHabit label (fallbackFeedback.habit_name ++ " (H" ++ toString label ++ ")")
        fallbackFeedback.feedback fallbackFeedback.tip (extractTriggers coefs)
        (env.save label (fallbackFeedback.habit_name ++ " (H" ++ toString label ++ ")")
          (extractTriggers coefs) fallbackFeedback.feedback fallbackFeedback.tip)
      ∈ (generate_and_save_feedback env label coefs).2 := by
  have hllm : generate_llm_feedback env =
      (fallbackFeedback,
       [Event.llmAttempt 0, Event.sleep 1, Event.llmAttempt 1,
        Event.sleep 2, Event.llmAttempt 2]) := by
    unfold generate_llm_feedback
    rw [h0, h1, h2]
  refine ⟨hllm, ?_⟩
  simp only [generate_and_save_feedback, ht, Bool.false_eq_true, if_false, hllm]
  exact List.mem_append_right _ (List.mem_singleton.mpr rfl)

/-- Witness for C8: the trivial environment's LLM fails on every attempt,
yet the save event with the fallback content is emitted for a cluster
with one strong trigger. -/
theorem llm_fallback_witness :
    generate_llm_feedback trivialEnv =
      (fallbackFeedback,
       [Event.llmAttempt 0, Event.sleep 1, Event.llmAttempt 1,
        Event.sleep 2, Event.llmAttempt 2]) ∧
    Event.saveHabit 3 (fallbackFeedback.habit_name ++ " (H" ++ toString (3 : Int) ++ ")")
        fallbackFeedback.feedback fallbackFeedback.tip
        (extractTriggers [("game_phase_Endgame", 2)])
        (trivialEnv.save 3
          (fallbackFeedback.habit_name ++ " (H" ++ toString (3 : Int) ++ ")")
          (extractTriggers [("game_phase_Endgame", 2)])
          fallbackFeedback.feedback fallbackFeedback.tip)
      ∈ (generate_and_save_feedback trivialEnv 3 [("game_phase_Endgame", 2)]).2 :=
  llm_fallback trivialEnv 3 [("game_phase_Endgame", 2)] rfl rfl rfl
    (by norm_num [extractTriggers, List.filter])

theorem le_foldl_max (l : List ℚ) (b : ℚ) : b ≤ l.foldl max b := by
  induction l generalizing b with
  | nil => exact le_refl b
  | cons x xs ih => exact le_trans (le_max_left b x) (ih (max b x))

theorem mem_le_foldl_max (l : List ℚ) : ∀ b a : ℚ, a ∈ l → a ≤ l.foldl max b := by
  induction l with
  | nil => intro b a h; exact absurd h (List.not_mem_nil a)
  | cons x xs ih =>
    intro b a h
    rcases List.mem_cons.mp h with rfl | hm
    · exact le_trans (le_max_right b a) (le_foldl_max xs (max b a))
    · exact ih (max b x) a hm

theorem foldl_min_le (l : List ℚ) (b : ℚ) : l.foldl min b ≤ b := by
  induction l generalizing b with
  | nil => exact le_refl b
  | cons x xs ih => exact le_trans (ih (min b x)) (min_le_left b x)

theorem foldl_min_le_mem (l : List ℚ) : ∀ b a : ℚ, a ∈ l → l.foldl min b ≤ a := by
  induction l with
  | nil => intro b a h; exact absurd h (List.not_mem_nil a)
  | cons x xs ih =>
    intro b a h
    rcases List.mem_cons.mp h with rfl | hm
    · exact le_trans (foldl_min_le xs (min b a)) (min_le_right b a)
    · exact ih (min b x) a hm

theorem mem_le_colMax (col : List ℚ) (a : ℚ) (h : a ∈ col) : a ≤ colMax col := by
  cases col with
  | nil => exact absurd h (List.not_mem_nil a)
  | cons x xs =>
    rcases List.mem_cons.mp h with rfl | hm
    · exact le_foldl_max xs a
    · exact mem_le_foldl_max xs x a hm

theorem colMin_le_mem (col : List ℚ) (a : ℚ) (h : a ∈ col) : colMin col ≤ a := by
  cases col with
  | nil => exact absurd h (List.not_mem_nil a)
  | cons x xs =>
    rcases List.mem_cons.mp h with rfl | hm
    · exact foldl_min_le xs a
    · exact foldl_min_le_mem xs x a hm

theorem numColDist_nonneg (col : List ℚ) (i j : ℕ) : 0 ≤ numColDist col i j := by
  simp only [numColDist]
  split_ifs with h
  · exact le_refl 0
  · apply div_nonneg (abs_nonneg _)
    cases col with
    | nil => simp [colMax, colMin] at h
    | cons x xs =>
      have h1 := colMin_le_mem (x :: xs) x (List.mem_cons_self x xs)
      have h2 := mem_le_colMax (x :: xs) x (List.mem_cons_self x xs)
      linarith

theorem getD_mem_of_lt (col : List ℚ) (i : ℕ) (hi : i < col.length) :
    col.getD i 0 ∈ col := by
  rw [List.getD_eq_getElem?_getD, List.getElem?_eq_getElem hi]
  exact List.getElem_mem hi

theorem numColDist_le_one (col : List ℚ) (n i j : ℕ) (hlen : col.length = n)
    (hi : i < n) (hj : j < n) : numColDist col i j ≤ 1 := by
  simp only [numColDist]
  split_ifs with h
  · exact zero_le_one
  · have hin : i < col.length := by omega
    have hjn : j < col.length := by omega
    have hmi := getD_mem_of_lt col i hin
    have hmj := getD_mem_of_lt col j hjn
    have hle1 := mem_le_colMax col _ hmi
    have hle2 := colMin_le_mem col _ hmj
    have hle3 := mem_le_colMax col _ hmj
    have hle4 := colMin_le_mem col _ hmi
    have hr0 : 0 ≤ colMax col - colMin col := by linarith
    have hr : 0 < colMax col - colMin col := lt_of_le_of_ne hr0 (Ne.symm h)
    rw [div_le_one hr]
    rw [abs_sub_le_iff]
    constructor
    · linarith
    · linarith

theorem numColDist_symm (col : List ℚ) (i j : ℕ) :
    numColDist col i j = numColDist col j i := by
  simp only [numColDist]
  rw [abs_sub_comm]

theorem numColDist_diag (col : List ℚ) (i : ℕ) : numColDist col i i = 0 := by
  simp only [numColDist]
  split_ifs <;> simp

theorem catColDist_nonneg (col : List String) (i j : ℕ) : 0 ≤ catColDist col i j := by
  simp only [catColDist]
  split_ifs <;> norm_num

theorem catColDist_le_one (col : List String) (i j : ℕ) : catColDist col i j ≤ 1 := by
  simp only [catColDist]
  split_ifs <;> norm_num

theorem catColDist_symm (col : List String) (i j : ℕ) :
    catColDist col i j = catColDist col j i := by
  simp only [catColDist]
  by_cases h : col.getD i "" = col.getD j ""
  · rw [if_pos h, if_pos h.symm]
  · rw [if_neg h, if_neg (fun hh => h hh.symm)]

theorem catColDist_diag (col : List String) (i : ℕ) : catColDist col i i = 0 := by
  simp [catColDist]

theorem sum_le_length (l : List ℚ) (h : ∀ x ∈ l, x ≤ 1) : l.sum ≤ (l.length : ℚ) := by
  induction l with
  | nil => simp
  | cons x xs ih =>
    simp only [List.sum_cons, List.length_cons]
    push_cast
    have hx := h x (List.mem_cons_self x xs)
    have hxs := ih (fun y hy => h y (List.mem_cons.mpr (Or.inr hy)))
    linarith

/-- C7: the Gower dissimilarity matrix is symmetric, has zero diagonal,
and has every entry in [0, 1], for any input whose numeric columns cover
the `n` records (indices `i`, `j` below `n`). -/
theorem gower_matrix_properties (d : GowerData) (n i j : ℕ)
    (hnum : ∀ col ∈ d.numCols, col.length = n) (hi : i < n) (hj : j < n) :
    gowerEntry d i j = gowerEntry d j i ∧
    gowerEntry d i i = 0 ∧
    0 ≤ gowerEntry d i j ∧
    gowerEntry d i j ≤ 1 := by
  refine ⟨?_, ?_, ?_, ?_⟩
  · unfold gowerEntry
    have h1 : d.numCols.map (fun col => numColDist col i j) =
        d.numCols.map (fun col => numColDist col j i) :=
      List.map_congr_left (fun col _ => numColDist_symm col i j)
    have h2 : d.catCols.map (fun col => catColDist col i j) =
        d.catCols.map (fun col => catColDist col j i) :=
      List.map_congr_left (fun col _ => catColDist_symm col i j)
    rw [h1, h2]
  · unfold gowerEntry
    have h1 : (d.numCols.map (fun col => numColDist col i i)).sum = 0 := by
      apply List.sum_eq_zero
      intro x hx
      rcases List.mem_map.mp hx with ⟨col, _, rfl⟩
      exact numColDist_diag col i
    have h2 : (d.catCols.map (fun col => catColDist col i i)).sum = 0 := by
      apply List.sum_eq_zero
      intro x hx
      rcases List.mem_map.mp hx with ⟨col, _, rfl⟩
      exact catColDist_diag col i
    rw [h1, h2]
    norm_num
  · unfold gowerEntry
    apply div_nonneg
    · apply add_nonneg
      · apply List.sum_nonneg
        intro x hx
        rcases List.mem_map.mp hx with ⟨col, _, rfl⟩
        exact numColDist_nonneg col i j
      · apply List.sum_nonneg
        intro x hx
        rcases List.mem_map.mp hx with ⟨col, _, rfl⟩
        exact catColDist_nonneg col i j
    · positivity
  · unfold gowerEntry
    rcases eq_or_lt_of_le
        (show (0 : ℚ) ≤ (d.numCols.length : ℚ) + (d.catCols.length : ℚ) by positivity)
      with hN | hN
    · rw [← hN, div_zero]
      exact zero_le_one
    · rw [div_le_one hN]
      have hn1 : (d.numCols.map (fun col => numColDist col i j)).sum ≤
          (d.numCols.length : ℚ) := by
        have := sum_le_length (d.numCols.map fun col => numColDist col i j) ?_
        · simpa [List.length_map] using this
        · intro x hx
          rcases List.mem_map.mp hx with ⟨col, hcol, rfl⟩
          exact numColDist_le_one col n i j (hnum col hcol) hi hj
      have hn2 : (d.catCols.map (fun col => catColDist col i j)).sum ≤
          (d.catCols.length : ℚ) := by
        have := sum_le_length (d.catCols.map fun col => catColDist col i j) ?_
        · simpa [List.length_map] using this
        · intro x hx
          rcases List.mem_map.mp hx with ⟨col, _, rfl⟩
          exact catColDist_le_one col i j
      linarith

/-- Witness for C7: the matrix properties instantiated on the two-record
example data. -/
theorem gower_matrix_properties_witness :
    gowerEntry gowerExample 0 1 = gowerEntry gowerExample 1 0 ∧
    gowerEntry gowerExample 0 0 = 0 ∧
    0 ≤ gowerEntry gowerExample 0 1 ∧
    gowerEntry gowerExample 0 1 ≤ 1 :=
  gower_matrix_properties gowerExample 2 0 1
    (by intro col hc; simp [gowerExample] at hc; subst hc; rfl)
    (by norm_num) (by norm_num)

end SkillIssue
